import Mathlib

/-!
Shallow embedding of the driver core in `src/rzchroma.c` (Razer DeathAdder
Chroma control driver).  Machine bytes are modelled as `Nat` values below 256,
`size_t` arithmetic is taken modulo `2 ^ 64`, and the `u8` loop counter and
accumulator of `report_crc` wrap modulo 256.  The possibly non-terminating C
loop is made total with explicit fuel.  Fallible steps (allocation, the USB
control transfer) are modelled as explicit parameters, and the transport is a
function from the serialized wire bytes to the `int` result of
`usb_control_msg`, so that "a transport call happened" is visible as the
`Option (List Nat)` component of the result.
-/

namespace Rzchroma

/-- Modulus of the C `size_t` type (64-bit build, as in the kernel source). -/
def USIZE : Nat := 2 ^ 64

/-- Scroll wheel LED ID, from the anonymous enum in the source. -/
def ATTR_WHEEL_COLOR : Nat := 0x01

/-- Razer logo LED ID, from the anonymous enum in the source. -/
def ATTR_LOGO_COLOR : Nat := 0x04

/-- The `struct rzchroma_report` wire structure.  Every field is a single
`u8` except `args`, an 80-byte array modelled as a `List Nat`.  The struct
has no padding, so its size is 89 bytes. -/
structure RzchromaReport where
  status : Nat
  transaction_id : Nat
  remaining_packets : Nat
  protocol_type : Nat
  args_len : Nat
  cmd_class : Nat
  cmd_id : Nat
  args : List Nat
  crc : Nat
  _reserved : Nat

/-- Byte-for-byte serialization of the report in declaration order: this is
the byte sequence `(u8 *)report` that `report_crc` and `usb_control_msg`
see. -/
def serialize (r : RzchromaReport) : List Nat :=
  [r.status, r.transaction_id, r.remaining_packets, r.protocol_type, r.args_len,
    r.cmd_class, r.cmd_id] ++ r.args ++ [r.crc, r._reserved]

/-- The value `count - 2` as the C code computes it on a 64-bit `size_t`
(wrapping subtraction for `count < 2`). -/
def sizeSub2 (count : Nat) : Nat := (count + USIZE - 2) % USIZE

/-- One faithful rendering of the loop in `report_crc`: `i` is the `u8` loop
counter (it wraps modulo 256 on increment), `crc` the `u8` accumulator, and
`bound` is `count - 2` computed in `size_t` arithmetic; the guard
`i < count - 2` compares the promoted value of `i` against `bound`.  The
fuel makes the possibly non-terminating C loop total: `none` means the fuel
ran out before the loop exited. -/
def crcLoopF (data : List Nat) (bound : Nat) : Nat → Nat → Nat → Option Nat
  | 0, _, _ => none
  | fuel + 1, i, crc =>
    if i < bound then
      crcLoopF data bound fuel ((i + 1) % 256) ((crc ^^^ data.getD i 0) % 256)
    else
      some crc

/-- The function `report_crc` of the source: run the loop from `i = 2`,
`crc = 0`.  Fuel 300 is enough for every terminating instance of the C loop
(at most 254 iterations when `count ≤ 257`); `none` arises exactly when the
C loop would not terminate. -/
def report_crc (data : List Nat) (count : Nat) : Option Nat :=
  crcLoopF data (sizeSub2 count) 300 2 0

/-- The C loop of `report_crc` terminates on `(data, count)`: some finite
fuel lets it exit the guard and return a checksum. -/
def crcTerminates (data : List Nat) (count : Nat) : Prop :=
  ∃ fuel c, crcLoopF data (sizeSub2 count) fuel 2 0 = some c

/-- XOR-fold of the bytes of `data` over the index range `[s, s + n)`. -/
def xorFold (data : List Nat) (s n : Nat) : Nat :=
  (List.range' s n).foldl (fun c i => c ^^^ data.getD i 0) 0

/-- The report as `write_attr` builds it before computing the checksum:
`kzalloc` zeroes every field, then `cmd_class`, `cmd_id`, the random
`transaction_id`, `args_len` and `args[0..4]` are assigned.  The `crc`
field is still 0 at this point. -/
def mkReport (attr_id tid r g b : Nat) : RzchromaReport :=
  { status := 0
    transaction_id := tid
    remaining_packets := 0
    protocol_type := 0
    args_len := 5
    cmd_class := 0x03
    cmd_id := 0x01
    args := [1, attr_id, r, g, b] ++ List.replicate 75 0
    crc := 0
    _reserved := 0 }

/-- The report as transmitted: the checksum of the zero-`crc` report is
written into the `crc` field (`report->crc = report_crc((u8 *)report, 89)`).
The loop terminates for count 89, so the `getD 0` default is never used. -/
def finishReport (rep : RzchromaReport) : RzchromaReport :=
  { rep with crc := (report_crc (serialize rep) 89).getD 0 }

/-- The function `write_attr` of the source.  `tid` stands for the random
byte `get_random_bytes` produces, `allocOk` for whether `kzalloc` succeeds,
and `transfer` for `usb_control_msg` on the serialized report.  The result
pairs the returned `ssize_t` with the wire bytes handed to the transport
(`none` when no transfer was attempted).  Error numbers are the Linux
values: `EINVAL = 22`, `ENOMEM = 12`, `EIO = 5`. -/
def write_attr (attr_id tid : Nat) (buf : List Nat) (allocOk : Bool)
    (transfer : List Nat → Int) : Int × Option (List Nat) :=
  if buf.length ≠ 3 then (-22, none)
  else if !allocOk then (-12, none)
  else
    let report := finishReport (mkReport attr_id tid (buf.getD 0 0) (buf.getD 1 0) (buf.getD 2 0))
    let wire := serialize report
    let rc := transfer wire
    if rc ≠ 89 then (if rc < 0 then rc else -5, some wire)
    else (3, some wire)

/-- Handler for writes to the `logo_color` sysfs attribute. -/
def rzchroma_attr_write_logo_color (tid : Nat) (buf : List Nat) (allocOk : Bool)
    (transfer : List Nat → Int) : Int × Option (List Nat) :=
  write_attr ATTR_LOGO_COLOR tid buf allocOk transfer

/-- Handler for writes to the `wheel_color` sysfs attribute. -/
def rzchroma_attr_write_wheel_color (tid : Nat) (buf : List Nat) (allocOk : Bool)
    (transfer : List Nat → Int) : Int × Option (List Nat) :=
  write_attr ATTR_WHEEL_COLOR tid buf allocOk transfer

/-! Helper lemmas about XOR folds and the CRC loop. -/

lemma xor_lt_256 {a b : Nat} (ha : a < 256) (hb : b < 256) : a ^^^ b < 256 := by
  have h : (256 : Nat) = 2 ^ 8 := by norm_num
  rw [h] at ha hb ⊢
  exact Nat.xor_lt_two_pow ha hb

lemma getD_lt_256 {d : List Nat} (h : ∀ b ∈ d, b < 256) (i : Nat) : d.getD i 0 < 256 := by
  rw [List.getD_eq_getElem?_getD]
  cases hx : d[i]? with
  | none => simp
  | some b =>
    simp only [Option.getD_some]
    exact h b (List.getElem?_mem hx)

lemma foldl_xor_init (d : List Nat) (l : List Nat) :
    ∀ a : Nat, l.foldl (fun c i => c ^^^ d.getD i 0) a =
      a ^^^ l.foldl (fun c i => c ^^^ d.getD i 0) 0 := by
  induction l with
  | nil => intro a; simp
  | cons x l ih =>
    intro a
    simp only [List.foldl_cons]
    rw [ih (a ^^^ d.getD x 0), ih (0 ^^^ d.getD x 0)]
    simp [Nat.xor_assoc]

lemma xorFold_zero (d : List Nat) (s : Nat) : xorFold d s 0 = 0 := rfl

lemma xorFold_succ (d : List Nat) (s n : Nat) :
    xorFold d s (n + 1) = d.getD s 0 ^^^ xorFold d (s + 1) n := by
  unfold xorFold
  rw [List.range'_succ]
  simp only [List.foldl_cons]
  rw [foldl_xor_init]
  simp

lemma xorFold_append (d : List Nat) (s m n : Nat) :
    xorFold d s (n + m) = xorFold d s m ^^^ xorFold d (s + m) n := by
  unfold xorFold
  rw [← List.range'_append_1 s m n, List.foldl_append, foldl_xor_init]

lemma xorFold_lt_256 {d : List Nat} (h : ∀ b ∈ d, b < 256) (s n : Nat) :
    xorFold d s n < 256 := by
  induction n generalizing s with
  | zero => rw [xorFold_zero]; decide
  | succ n ih =>
    rw [xorFold_succ]
    exact xor_lt_256 (getD_lt_256 h s) (ih (s + 1))

/-- Running the CRC loop with enough fuel from any in-range state computes
the XOR-fold of the remaining index window. -/
lemma crcLoopF_eq (d : List Nat) (bound : Nat) (hbound : bound ≤ 255)
    (hd : ∀ b ∈ d, b < 256) :
    ∀ fuel i crc, bound - i < fuel → crc < 256 →
      crcLoopF d bound fuel i crc = some (crc ^^^ xorFold d i (bound - i)) := by
  intro fuel
  induction fuel with
  | zero => intro i crc hfuel _; omega
  | succ fuel ih =>
    intro i crc hfuel hcrc
    rw [crcLoopF]
    by_cases hi : i < bound
    · have hi1 : (i + 1) % 256 = i + 1 := Nat.mod_eq_of_lt (by omega)
      have hstep : (crc ^^^ d.getD i 0) % 256 = crc ^^^ d.getD i 0 :=
        Nat.mod_eq_of_lt (xor_lt_256 hcrc (getD_lt_256 hd i))
      rw [if_pos hi, hi1, hstep, ih (i + 1) (crc ^^^ d.getD i 0) (by omega)
        (xor_lt_256 hcrc (getD_lt_256 hd i))]
      have hsub : bound - i = (bound - (i + 1)) + 1 := by omega
      rw [hsub, xorFold_succ, Nat.xor_assoc]
    · rw [if_neg hi]
      have hsub : bound - i = 0 := by omega
      rw [hsub, xorFold_zero, Nat.xor_zero]

/-- With 300 fuel and a byte-valued buffer, `report_crc` computes the
XOR-fold over `[2, count - 2)` whenever `2 ≤ count ≤ 257`. -/
lemma report_crc_eq_fold (d : List Nat) (count : Nat) (h2 : 2 ≤ count)
    (h257 : count ≤ 257) (hd : ∀ b ∈ d, b < 256) :
    report_crc d count = some (xorFold d 2 (count - 4)) := by
  have hpow : USIZE = 18446744073709551616 := by unfold USIZE; norm_num
  have hUS : sizeSub2 count = count - 2 := by
    unfold sizeSub2
    rw [hpow]
    omega
  unfold report_crc
  rw [hUS, crcLoopF_eq d (count - 2) (by omega) hd 300 2 0 (by omega) (by decide)]
  have : count - 2 - 2 = count - 4 := by omega
  rw [this, Nat.zero_xor]

/-- The CRC loop never reads the bytes at indices 0 and 1: as long as the
guard bound stays below 256 (no counter wrap), two buffers agreeing on every
index in `[2, bound)` give the same loop result from any start `i ≥ 2`. -/
lemma crcLoopF_congr (d1 d2 : List Nat) (bound : Nat) (hb : bound ≤ 255)
    (h : ∀ j, 2 ≤ j → j < bound → d1.getD j 0 = d2.getD j 0) :
    ∀ fuel i crc, 2 ≤ i →
      crcLoopF d1 bound fuel i crc = crcLoopF d2 bound fuel i crc := by
  intro fuel
  induction fuel with
  | zero => intro i crc _; rfl
  | succ fuel ih =>
    intro i crc hi
    rw [crcLoopF, crcLoopF]
    by_cases hlt : i < bound
    · have hi1 : (i + 1) % 256 = i + 1 := Nat.mod_eq_of_lt (by omega)
      rw [if_pos hlt, if_pos hlt, h i hi hlt, hi1]
      exact ih (i + 1) _ (by omega)
    · rw [if_neg hlt, if_neg hlt]

/-- When the guard bound is below 256 the loop exits with some checksum,
whatever the buffer holds. -/
lemma crcLoopF_some (d : List Nat) (bound : Nat) (hb : bound ≤ 255) :
    ∀ fuel i crc, bound - i < fuel → ∃ c, crcLoopF d bound fuel i crc = some c := by
  intro fuel
  induction fuel with
  | zero => intro i crc h; omega
  | succ fuel ih =>
    intro i crc h
    rw [crcLoopF]
    by_cases hlt : i < bound
    · have hi1 : (i + 1) % 256 = i + 1 := Nat.mod_eq_of_lt (by omega)
      rw [if_pos hlt, hi1]
      exact ih (i + 1) _ (by omega)
    · rw [if_neg hlt]
      exact ⟨crc, rfl⟩

/-- When the guard bound is at least 256 the `u8` counter can never reach
it: from any in-range counter the loop consumes all fuel and never exits. -/
lemma crcLoopF_none_of_big (d : List Nat) (bound : Nat) (hb : 256 ≤ bound) :
    ∀ fuel i crc, i < 256 → crcLoopF d bound fuel i crc = none := by
  intro fuel
  induction fuel with
  | zero => intro i crc _; rfl
  | succ fuel ih =>
    intro i crc hi
    rw [crcLoopF, if_pos (by omega)]
    exact ih _ _ (Nat.mod_lt _ (by omega))

lemma getD_set_ne (d : List Nat) (j v i : Nat) (h : i ≠ j) :
    (d.set j v).getD i 0 = d.getD i 0 := by
  rw [List.getD_eq_getElem?_getD, List.getD_eq_getElem?_getD,
    List.getElem?_set_ne h.symm]

lemma getD_set_self (d : List Nat) (j v : Nat) (h : j < d.length) :
    (d.set j v).getD j 0 = v := by
  rw [List.getD_eq_getElem?_getD, List.getElem?_set_self h]
  rfl

lemma set_bytes_lt_256 {d : List Nat} (hd : ∀ b ∈ d, b < 256) {v : Nat}
    (hv : v < 256) (j : Nat) : ∀ b ∈ d.set j v, b < 256 := by
  intro b hb
  rcases List.mem_or_eq_of_mem_set hb with h | h
  · exact hd b h
  · omega

lemma xorFold_congr (d1 d2 : List Nat) (s n : Nat)
    (h : ∀ i, s ≤ i → i < s + n → d1.getD i 0 = d2.getD i 0) :
    xorFold d1 s n = xorFold d2 s n := by
  induction n generalizing s with
  | zero => rfl
  | succ n ih =>
    rw [xorFold_succ, xorFold_succ, h s (Nat.le_refl s) (by omega),
      ih (s + 1) (fun i hi1 hi2 => h i (by omega) (by omega))]

/-- Splitting the 89-byte checksum window `[2, 87)` around an index `j`
inside it. -/
lemma xorFold_split_at (X : List Nat) (j : Nat) (h2 : 2 ≤ j) (hj : j < 87) :
    xorFold X 2 85 =
      xorFold X 2 (j - 2) ^^^ (X.getD j 0 ^^^ xorFold X (j + 1) (86 - j)) := by
  have h85 : 85 = (87 - j) + (j - 2) := by omega
  rw [h85, xorFold_append]
  have hj2 : 2 + (j - 2) = j := by omega
  rw [hj2]
  have h87j : 87 - j = (86 - j) + 1 := by omega
  rw [h87j, xorFold_succ]

/-- The serialized built report in explicit head-normal form: byte 0 is the
zeroed status, byte 1 the transaction id, and the tail does not mention the
transaction id at all. -/
def serialTail (t r g b : Nat) : List Nat :=
  0 :: 0 :: 5 :: 3 :: 1 :: (([1, t, r, g, b] ++ List.replicate 75 0) ++ [0, 0])

lemma serialize_mkReport (t tid r g b : Nat) :
    serialize (mkReport t tid r g b) = 0 :: tid :: serialTail t r g b := rfl

lemma getD_cons_cons_two (a b : Nat) (l : List Nat) (k : Nat) :
    (a :: b :: l).getD (k + 2) 0 = l.getD k 0 := rfl

/-- The wire bytes `write_attr` hands to the transport for a 3-byte color
buffer. -/
def wireOf (attr_id tid : Nat) (buf : List Nat) : List Nat :=
  serialize (finishReport (mkReport attr_id tid (buf.getD 0 0) (buf.getD 1 0) (buf.getD 2 0)))

/-! Claim theorems. -/

/-- C1: the report checksum function, given the serialized report bytes and
a count, returns the XOR-fold of every byte at index `i` with
`2 ≤ i < count - 2`; in particular, for the 89-byte report it equals the
XOR of bytes at indices 2 through 86 inclusive, excluding status (index 0),
transaction_id (index 1), the checksum slot (index 87) and the reserved
byte (index 88). -/
theorem report_crc_is_xor_fold (d : List Nat) (count : Nat) (h2 : 2 ≤ count)
    (h257 : count ≤ 257) (hd : ∀ b ∈ d, b < 256) :
    report_crc d count = some (xorFold d 2 (count - 4)) ∧
    report_crc d 89 = some (xorFold d 2 85) :=
  ⟨report_crc_eq_fold d count h2 h257 hd,
    report_crc_eq_fold d 89 (by norm_num) (by norm_num) hd⟩

theorem report_crc_is_xor_fold_witness :
    report_crc (List.range 89) 89 = some (xorFold (List.range 89) 2 85) :=
  (report_crc_is_xor_fold (List.range 89) 89 (by decide) (by decide) (by decide)).2

/-- C2: for every 3-byte color buffer `(r, g, b)`, building the set-color
report for the logo LED target yields `cmd_class = 0x03`, `cmd_id = 0x01`,
`args_len = 5`, `args[0] = 1` (persist flag), `args[1] = 0x04` (logo target
code), `args[2..4] = (r, g, b)` forwarded verbatim, remaining args bytes
zero, and a serialized length of exactly 89 bytes; the logo attribute
handler hands exactly this report to the codec and transport. -/
theorem logo_report_shape (tid r g b : Nat) (transfer : List Nat → Int) :
    (mkReport ATTR_LOGO_COLOR tid r g b).cmd_class = 0x03 ∧
    (mkReport ATTR_LOGO_COLOR tid r g b).cmd_id = 0x01 ∧
    (mkReport ATTR_LOGO_COLOR tid r g b).args_len = 5 ∧
    (mkReport ATTR_LOGO_COLOR tid r g b).args =
      [1, 0x04, r, g, b] ++ List.replicate 75 0 ∧
    (serialize (mkReport ATTR_LOGO_COLOR tid r g b)).length = 89 ∧
    (serialize (finishReport (mkReport ATTR_LOGO_COLOR tid r g b))).length = 89 ∧
    (rzchroma_attr_write_logo_color tid [r, g, b] true transfer).2 =
      some (serialize (finishReport (mkReport ATTR_LOGO_COLOR tid r g b))) := by
  refine ⟨rfl, rfl, rfl, rfl, rfl, rfl, ?_⟩
  unfold rzchroma_attr_write_logo_color write_attr
  norm_num
  split <;> rfl

/-- C9: a write to the scroll-wheel LED attribute builds a report whose
`args[1]` (LED target code, serialized byte index 8) equals `0x01`, the
value of `ATTR_WHEEL_COLOR`. -/
theorem wheel_report_target_code (tid r g b : Nat) (transfer : List Nat → Int) :
    ATTR_WHEEL_COLOR = 0x01 ∧
    (mkReport ATTR_WHEEL_COLOR tid r g b).args.getD 1 0 = 0x01 ∧
    (serialize (finishReport (mkReport ATTR_WHEEL_COLOR tid r g b))).getD 8 0 = 0x01 ∧
    (rzchroma_attr_write_wheel_color tid [r, g, b] true transfer).2 =
      some (serialize (finishReport (mkReport ATTR_WHEEL_COLOR tid r g b))) := by
  refine ⟨rfl, rfl, rfl, ?_⟩
  unfold rzchroma_attr_write_wheel_color write_attr
  norm_num
  split <;> rfl

set_option maxRecDepth 100000 in
/-- C3 counterexample: the claim says two built reports that are
byte-for-byte identical except in the transaction identifier byte have
different checksums.  At the concrete color `(0x10, 0x20, 0x30)` for the
logo target, the reports with transaction ids 0 and 1 differ exactly at
byte index 1, yet their computed checksums are equal: the transaction
identifier lies outside the checksummed range `[2, 87)`. -/
theorem tid_checksum_counterexample :
    serialize (mkReport ATTR_LOGO_COLOR 1 0x10 0x20 0x30) =
      (serialize (mkReport ATTR_LOGO_COLOR 0 0x10 0x20 0x30)).set 1 1 ∧
    report_crc (serialize (mkReport ATTR_LOGO_COLOR 0 0x10 0x20 0x30)) 89 =
      report_crc (serialize (mkReport ATTR_LOGO_COLOR 1 0x10 0x20 0x30)) 89 := by
  constructor
  · rfl
  · decide

/-- C3 amended: for any two built reports that are byte-for-byte identical
except in the transaction identifier byte (sending the same
`(target, color)` pair twice), the computed checksums of the two reports
are EQUAL, because the transaction identifier (byte index 1) falls outside
the checksummed range `[2, count - 2)`. -/
theorem tid_outside_checksum_range (t tid1 tid2 r g b : Nat) :
    serialize (mkReport t tid2 r g b) =
      (serialize (mkReport t tid1 r g b)).set 1 tid2 ∧
    report_crc (serialize (mkReport t tid1 r g b)) 89 =
      report_crc (serialize (mkReport t tid2 r g b)) 89 := by
  constructor
  · rfl
  · have h87 : sizeSub2 89 = 87 := by decide
    unfold report_crc
    rw [h87]
    refine crcLoopF_congr _ _ 87 (by norm_num) ?_ 300 2 0 (by norm_num)
    intro j hj _
    obtain ⟨k, rfl⟩ : ∃ k, j = k + 2 := ⟨j - 2, by omega⟩
    rw [serialize_mkReport, serialize_mkReport, getD_cons_cons_two,
      getD_cons_cons_two]

/-- C10: the checksum loop terminates for every count with
`2 ≤ count ≤ 257` (in particular for the fixed report size 89 used by the
driver); the loop counter is an 8-bit value, so for `count < 2` or
`257 < count < 2^64` the guard bound `count - 2` (in `size_t` arithmetic)
is at least 256 and the loop never terminates. -/
theorem report_crc_termination :
    (∀ d count, 2 ≤ count → count ≤ 257 → crcTerminates d count) ∧
    (∀ d : List Nat, crcTerminates d 89) ∧
    (∀ d count, count < 2 → ¬ crcTerminates d count) ∧
    (∀ d count, 258 ≤ count → count < USIZE → ¬ crcTerminates d count) := by
  have hpow : USIZE = 18446744073709551616 := by unfold USIZE; norm_num
  have hterm : ∀ d count, 2 ≤ count → count ≤ 257 → crcTerminates d count := by
    intro d count h2 h257
    have hUS : sizeSub2 count = count - 2 := by
      unfold sizeSub2
      rw [hpow]
      omega
    obtain ⟨c, hc⟩ := crcLoopF_some d (sizeSub2 count) (by omega) 300 2 0 (by omega)
    exact ⟨300, c, hc⟩
  refine ⟨hterm, fun d => hterm d 89 (by norm_num) (by norm_num), ?_, ?_⟩
  · intro d count hlt ⟨fuel, c, hc⟩
    have hUS : 256 ≤ sizeSub2 count := by
      unfold sizeSub2
      rw [hpow]
      omega
    rw [crcLoopF_none_of_big d (sizeSub2 count) hUS fuel 2 0 (by norm_num)] at hc
    exact Option.noConfusion hc
  · intro d count h258 hlt ⟨fuel, c, hc⟩
    rw [hpow] at hlt
    have hUS : 256 ≤ sizeSub2 count := by
      unfold sizeSub2
      rw [hpow]
      omega
    rw [crcLoopF_none_of_big d (sizeSub2 count) hUS fuel 2 0 (by norm_num)] at hc
    exact Option.noConfusion hc

theorem report_crc_termination_witness :
    crcTerminates [] 89 ∧ ¬ crcTerminates [] 258 :=
  ⟨report_crc_termination.2.1 [],
    report_crc_termination.2.2.2 [] 258 (by norm_num) (by decide)⟩

/-- On a valid 3-byte buffer with successful allocation, `write_attr`
reduces to the transport branch on the wire bytes. -/
lemma write_attr_ok (attr_id tid : Nat) (buf : List Nat) (transfer : List Nat → Int)
    (h3 : buf.length = 3) :
    write_attr attr_id tid buf true transfer =
      if transfer (wireOf attr_id tid buf) ≠ 89 then
        ((if transfer (wireOf attr_id tid buf) < 0 then transfer (wireOf attr_id tid buf)
          else -5), some (wireOf attr_id tid buf))
      else (3, some (wireOf attr_id tid buf)) := by
  unfold write_attr wireOf
  rw [if_neg (by simp [h3])]
  rfl

lemma write_attr_fst (attr_id tid : Nat) (buf : List Nat) (transfer : List Nat → Int)
    (h3 : buf.length = 3) :
    (write_attr attr_id tid buf true transfer).1 =
      if transfer (wireOf attr_id tid buf) ≠ 89 then
        (if transfer (wireOf attr_id tid buf) < 0 then transfer (wireOf attr_id tid buf)
          else -5)
      else 3 := by
  rw [write_attr_ok attr_id tid buf transfer h3]
  by_cases h89 : transfer (wireOf attr_id tid buf) ≠ 89
  · rw [if_pos h89, if_pos h89]
  · rw [if_neg h89, if_neg h89]

/-- C4: for every input buffer whose length is not exactly 3, the
attribute-write operation returns `-EINVAL = -22` immediately, with no
report built and no transport call performed (the sent-bytes component is
`none`); for buffers of length exactly 3 with successful allocation the
validation passes, the report is encoded, and the transport is invoked on
it. -/
theorem write_attr_input_validation (attr_id tid : Nat) (buf : List Nat)
    (allocOk : Bool) (transfer : List Nat → Int) :
    (buf.length ≠ 3 → write_attr attr_id tid buf allocOk transfer = (-22, none)) ∧
    (buf.length = 3 → allocOk = true →
      (write_attr attr_id tid buf allocOk transfer).2 = some (wireOf attr_id tid buf)) := by
  constructor
  · intro h
    unfold write_attr
    rw [if_pos h]
  · intro h3 ha
    subst ha
    rw [write_attr_ok attr_id tid buf transfer h3]
    by_cases h89 : transfer (wireOf attr_id tid buf) ≠ 89
    · rw [if_pos h89]
    · rw [if_neg h89]

theorem write_attr_input_validation_witness :
    write_attr 4 0 [1, 2] true (fun _ => 89) = (-22, none) ∧
    (write_attr 4 0 [1, 2, 3] true (fun _ => 89)).2 = some (wireOf 4 0 [1, 2, 3]) :=
  ⟨(write_attr_input_validation 4 0 [1, 2] true (fun _ => 89)).1 (by decide),
    (write_attr_input_validation 4 0 [1, 2, 3] true (fun _ => 89)).2 rfl rfl⟩

/-- C5: for every valid 3-byte input (with successful allocation), the
attribute-write operation returns success with value 3 if and only if the
control transfer reports exactly 89 bytes accepted; a negative transfer
result is propagated as the error, and a nonnegative byte count different
from 89 (a short write) fails with `-EIO = -5`. -/
theorem write_attr_transport_mapping (attr_id tid : Nat) (buf : List Nat)
    (transfer : List Nat → Int) (h3 : buf.length = 3) :
    ((write_attr attr_id tid buf true transfer).1 = 3 ↔
      transfer (wireOf attr_id tid buf) = 89) ∧
    (transfer (wireOf attr_id tid buf) < 0 →
      (write_attr attr_id tid buf true transfer).1 = transfer (wireOf attr_id tid buf)) ∧
    (0 ≤ transfer (wireOf attr_id tid buf) → transfer (wireOf attr_id tid buf) ≠ 89 →
      (write_attr attr_id tid buf true transfer).1 = -5) := by
  rw [write_attr_fst attr_id tid buf transfer h3]
  generalize transfer (wireOf attr_id tid buf) = t
  split_ifs with h89 hneg
  · exact ⟨by omega, fun _ => rfl, by omega⟩
  · exact ⟨iff_of_false (fun h => h) h89, by omega, fun _ _ => rfl⟩
  · exact ⟨by omega, by omega, by omega⟩

theorem write_attr_transport_mapping_witness :
    (write_attr 4 0 [1, 2, 3] true (fun _ => 89)).1 = 3 ∧
    (write_attr 4 0 [1, 2, 3] true (fun _ => -71)).1 = -71 ∧
    (write_attr 4 0 [1, 2, 3] true (fun _ => 88)).1 = -5 :=
  ⟨(write_attr_transport_mapping 4 0 [1, 2, 3] (fun _ => 89) rfl).1.mpr rfl,
    (write_attr_transport_mapping 4 0 [1, 2, 3] (fun _ => -71) rfl).2.1 (by decide),
    (write_attr_transport_mapping 4 0 [1, 2, 3] (fun _ => 88) rfl).2.2 (by decide) (by decide)⟩

/-- C6: mutating the status byte (index 0), the checksum byte (index 87),
or the reserved byte (index 88) of an 89-byte report never changes the
computed checksum; mutating any single byte at an index in `[2, 87)` to a
different byte value always changes the computed checksum, since a
single-byte XOR change cannot cancel. -/
theorem checksum_range_exclusion (d : List Nat) (j v : Nat) (hlen : d.length = 89)
    (hd : ∀ b ∈ d, b < 256) (hv : v < 256) :
    ((j = 0 ∨ j = 87 ∨ j = 88) → report_crc (d.set j v) 89 = report_crc d 89) ∧
    (2 ≤ j → j < 87 → v ≠ d.getD j 0 →
      report_crc (d.set j v) 89 ≠ report_crc d 89) := by
  constructor
  · intro hj
    have h87 : sizeSub2 89 = 87 := by decide
    unfold report_crc
    rw [h87]
    refine crcLoopF_congr _ _ 87 (by norm_num) ?_ 300 2 0 (by norm_num)
    intro i hi1 hi2
    rcases hj with h | h | h <;> exact getD_set_ne d j v i (by omega)
  · intro h2 hj hne heq
    have hdset : ∀ b ∈ d.set j v, b < 256 := set_bytes_lt_256 hd hv j
    rw [report_crc_eq_fold (d.set j v) 89 (by norm_num) (by norm_num) hdset,
      report_crc_eq_fold d 89 (by norm_num) (by norm_num) hd] at heq
    have h85 : (89 : Nat) - 4 = 85 := rfl
    rw [h85] at heq
    have hsome := Option.some.inj heq
    rw [xorFold_split_at (d.set j v) j h2 hj, xorFold_split_at d j h2 hj] at hsome
    have hA : xorFold (d.set j v) 2 (j - 2) = xorFold d 2 (j - 2) :=
      xorFold_congr _ _ 2 (j - 2) (fun i hi1 hi2 => getD_set_ne d j v i (by omega))
    have hB : xorFold (d.set j v) (j + 1) (86 - j) = xorFold d (j + 1) (86 - j) :=
      xorFold_congr _ _ (j + 1) (86 - j) (fun i hi1 hi2 => getD_set_ne d j v i (by omega))
    rw [hA, hB, getD_set_self d j v (by omega)] at hsome
    exact hne (Nat.xor_left_inj.mp (Nat.xor_right_inj.mp hsome))

theorem checksum_range_exclusion_witness :
    report_crc ((List.replicate 89 3).set 0 7) 89 = report_crc (List.replicate 89 3) 89 ∧
    report_crc ((List.replicate 89 3).set 5 7) 89 ≠ report_crc (List.replicate 89 3) 89 :=
  ⟨(checksum_range_exclusion (List.replicate 89 3) 0 7 (by decide) (by decide)
      (by decide)).1 (Or.inl rfl),
    (checksum_range_exclusion (List.replicate 89 3) 5 7 (by decide) (by decide)
      (by decide)).2 (by decide) (by decide) (by decide)⟩

/-- C7: every built report has `status`, `remaining_packets`,
`protocol_type` and `_reserved` equal to 0, `args_len = 5`, and all unused
args bytes (`args[5]` through `args[79]`) equal to 0 — both for the report
whose serialization feeds the checksum computation (`mkReport`, whose `crc`
field is still the `kzalloc` zero) and for the transmitted report
(`finishReport`, which only fills the `crc` field). -/
theorem report_invariants (attr_id tid r g b : Nat) :
    (mkReport attr_id tid r g b).status = 0 ∧
    (mkReport attr_id tid r g b).remaining_packets = 0 ∧
    (mkReport attr_id tid r g b).protocol_type = 0 ∧
    (mkReport attr_id tid r g b)._reserved = 0 ∧
    (mkReport attr_id tid r g b).args_len = 5 ∧
    (mkReport attr_id tid r g b).args.drop 5 = List.replicate 75 0 ∧
    (finishReport (mkReport attr_id tid r g b)).status = 0 ∧
    (finishReport (mkReport attr_id tid r g b)).remaining_packets = 0 ∧
    (finishReport (mkReport attr_id tid r g b)).protocol_type = 0 ∧
    (finishReport (mkReport attr_id tid r g b))._reserved = 0 ∧
    (finishReport (mkReport attr_id tid r g b)).args_len = 5 ∧
    (finishReport (mkReport attr_id tid r g b)).args.drop 5 = List.replicate 75 0 :=
  ⟨rfl, rfl, rfl, rfl, rfl, rfl, rfl, rfl, rfl, rfl, rfl, rfl⟩

/-- C8: if the report buffer cannot be allocated, the attribute-write
operation returns `-ENOMEM = -12` and no transport call is performed
(nothing is sent to the device). -/
theorem write_attr_alloc_failure (attr_id tid : Nat) (buf : List Nat)
    (transfer : List Nat → Int) (h3 : buf.length = 3) :
    write_attr attr_id tid buf false transfer = (-12, none) := by
  unfold write_attr
  rw [if_neg (by simp [h3])]
  rfl

theorem write_attr_alloc_failure_witness :
    write_attr 4 0 [1, 2, 3] false (fun _ => 89) = (-12, none) :=
  write_attr_alloc_failure 4 0 [1, 2, 3] (fun _ => 89) rfl

end Rzchroma
